import Mathlib

/-!
Verification of the CRISP critical-path analysis engine.

This file gives a shallow embedding of the trace-analysis core of the
CRISP repository (files `graph.py`, `process.py`, `flamegraph.py`) and
proves properties of that embedding.  Spans carry integer microsecond
timestamps; Python dictionaries are modelled as insertion-ordered
association lists; the only fractional arithmetic in the source (the 1%
overlap tolerance of `happensBefore`) is modelled with exact rationals.
-/

namespace Crisp

/-! ### Span references (`Graph.parseNode`, pass 1)

A Jaeger span carries a list of references; pass 1 of `parseNode` scans
them with `for parent in span[references]: if parent[refType] == CHILD_OF:
parentSpanId = parent[spanID]`, so each `CHILD_OF` entry overwrites the
hint recorded so far. -/

structure SpanRef where
  refType : String
  spanId : String
deriving Repr, DecidableEq

/-- The parent hint recorded by pass 1 of `Graph.parseNode`: a fold over the
reference list that overwrites the hint at every `CHILD_OF` entry. -/
def parentSpanIdOfRefs (refs : List SpanRef) : Option String :=
  refs.foldl (fun acc r => if r.refType = "CHILD_OF" then some r.spanId else acc) none

/-- Predicate selecting `CHILD_OF` references. -/
def isChildOf (r : SpanRef) : Bool := r.refType = "CHILD_OF"

theorem parentSpanIdOfRefs_foldl (refs : List SpanRef) : ∀ acc : Option String,
    refs.foldl (fun acc r => if r.refType = "CHILD_OF" then some r.spanId else acc) acc
      = (((refs.filter isChildOf).getLast?).map (fun r => some r.spanId)).getD acc := by
  induction refs using List.reverseRecOn with
  | nil => intro acc; simp
  | append_singleton l r ih =>
    intro acc
    rw [List.foldl_append]
    by_cases hr : r.refType = "CHILD_OF"
    · simp [List.filter_append, isChildOf, hr]
    · simp only [List.foldl_cons, List.foldl_nil, if_neg hr]
      rw [ih acc]
      simp [List.filter_append, isChildOf, hr]

/-- Claim C4 counterexample: on a reference list with two `CHILD_OF` entries
naming parents `p1` (first) and `p2` (second), pass 1 does not record the
first entry's span id. -/
theorem claim_C4_counterexample :
    ((List.filter isChildOf
        [SpanRef.mk "CHILD_OF" "p1", SpanRef.mk "CHILD_OF" "p2"]).head?).map
          (fun r => r.spanId) = some "p1" ∧
    parentSpanIdOfRefs [SpanRef.mk "CHILD_OF" "p1", SpanRef.mk "CHILD_OF" "p2"] = some "p2" ∧
    parentSpanIdOfRefs [SpanRef.mk "CHILD_OF" "p1", SpanRef.mk "CHILD_OF" "p2"] ≠ some "p1" := by
  decide

/-- Claim C4 amended: for every input span, `GraphBuilder` records the span id
of the last `CHILD_OF` reference (none when no such reference exists) as the
constructed node's parent hint. -/
theorem claim_C4_amended_last_child_of (refs : List SpanRef) :
    parentSpanIdOfRefs refs = ((refs.filter isChildOf).getLast?).map (fun r => r.spanId) := by
  unfold parentSpanIdOfRefs
  rw [parentSpanIdOfRefs_foldl]
  cases (refs.filter isChildOf).getLast? <;> rfl

/-! ### Spans and the trace tree (`GraphNode`)

`GraphNode.__init__` stores the span id, start time, duration, the derived
end time `startTime + duration`, the operation name, and the process id.
The tree structure (each node with an ordered collection of children) is
modelled by a mutually inductive tree/forest pair. -/

structure SpanData where
  sid : String
  startTime : Int
  duration : Int
  endTime : Int
  opName : String
  pid : String
deriving Repr, DecidableEq

mutual
inductive GTree where
  | node (data : SpanData) (children : GForest)
deriving Repr, DecidableEq

inductive GForest where
  | nil
  | cons (t : GTree) (rest : GForest)
deriving Repr, DecidableEq
end

def GTree.dataOf : GTree → SpanData
  | .node d _ => d

def GForest.toList : GForest → List GTree
  | .nil => []
  | .cons t rest => t :: rest.toList

/-- Duration non-negativity for every span of a forest. -/
def nonNegDurForest : GForest → Bool
  | .nil => true
  | .cons (.node d kids) rest =>
    decide (0 ≤ d.duration) && nonNegDurForest kids && nonNegDurForest rest

/-- Duration non-negativity for every span of a tree. -/
def nonNegDur : GTree → Bool
  | .node d kids => decide (0 ≤ d.duration) && nonNegDurForest kids

/-! ### Sanitization (`Graph.sanitizeOverflowingChildren`)

For each child of the current node the method compares the child interval
with the parent interval: case 1 (contained) recurses unchanged; case 2
(leading overflow) truncates the start; case 3 (trailing overflow)
truncates the end; case 4 (disjoint) removes the child, making its whole
subtree unreachable. -/

mutual
def sanitizeOverflowingChildren : GTree → GTree
  | .node d kids => .node d (sanitizeChildrenOf d.startTime d.endTime kids)

def sanitizeChildrenOf (pS pE : Int) : GForest → GForest
  | .nil => .nil
  | .cons (GTree.node d kids) rest =>
    if d.startTime ≥ pS ∧ d.endTime ≤ pE then
      -- case 1: contained, recurse
      .cons (GTree.node d (sanitizeChildrenOf d.startTime d.endTime kids))
        (sanitizeChildrenOf pS pE rest)
    else if d.startTime < pS ∧ d.endTime ≤ pE ∧ d.endTime > pS then
      -- case 2: child starts before parent; shrunk = pS - startTime,
      -- startTime := pS, duration -= shrunk (endTime field untouched)
      .cons (GTree.node { d with startTime := pS, duration := d.duration - (pS - d.startTime) }
        (sanitizeChildrenOf pS d.endTime kids))
        (sanitizeChildrenOf pS pE rest)
    else if d.startTime ≥ pS ∧ d.endTime > pE ∧ d.startTime < pE then
      -- case 3: child ends after parent; shrunk = endTime - pE,
      -- duration -= shrunk, endTime -= shrunk
      .cons (GTree.node { d with duration := d.duration - (d.endTime - pE),
                                 endTime := d.endTime - (d.endTime - pE) }
        (sanitizeChildrenOf d.startTime pE kids))
        (sanitizeChildrenOf pS pE rest)
    else
      -- case 4: disjoint, drop the child and do not recurse
      sanitizeChildrenOf pS pE rest
end

/-- Parent/child pairs of spans reachable from the nodes of a forest, the
first component being the parent of the second. -/
def edgesForest (pd : SpanData) : GForest → List (SpanData × SpanData)
  | .nil => []
  | .cons (.node d kids) rest => (pd, d) :: (edgesForest d kids ++ edgesForest pd rest)

/-- Parent/child pairs of spans reachable from the root of a tree. -/
def edges : GTree → List (SpanData × SpanData)
  | .node d kids => edgesForest d kids

theorem edgesForest_sanitize_sound (pS pE : Int) (f : GForest) :
    ∀ pd : SpanData, pd.startTime = pS → pd.endTime = pE →
      ∀ pc ∈ edgesForest pd (sanitizeChildrenOf pS pE f),
        pc.1.startTime ≤ pc.2.startTime ∧ pc.2.endTime ≤ pc.1.endTime := by
  induction pS, pE, f using sanitizeChildrenOf.induct with
  | case1 pS pE =>
    simp [sanitizeChildrenOf, edgesForest]
  | case2 pS pE d kids rest hc ih1 ih2 =>
    intro pd hS hE pc hpc
    simp only [sanitizeChildrenOf, if_pos hc, edgesForest, List.mem_cons,
      List.mem_append] at hpc
    rcases hpc with rfl | hpc | hpc
    · dsimp only
      exact ⟨by omega, by omega⟩
    · exact ih1 d rfl rfl pc hpc
    · exact ih2 pd hS hE pc hpc
  | case3 pS pE d kids rest hc1 hc2 ih1 ih2 =>
    intro pd hS hE pc hpc
    simp only [sanitizeChildrenOf, if_neg hc1, if_pos hc2, edgesForest, List.mem_cons,
      List.mem_append] at hpc
    rcases hpc with rfl | hpc | hpc
    · dsimp only
      exact ⟨by omega, by omega⟩
    · exact ih1 ⟨d.sid, pS, d.duration - (pS - d.startTime), d.endTime, d.opName, d.pid⟩
        rfl rfl pc hpc
    · exact ih2 pd hS hE pc hpc
  | case4 pS pE d kids rest hc1 hc2 hc3 ih1 ih2 =>
    intro pd hS hE pc hpc
    simp only [sanitizeChildrenOf, if_neg hc1, if_neg hc2, if_pos hc3, edgesForest,
      List.mem_cons, List.mem_append] at hpc
    rcases hpc with rfl | hpc | hpc
    · dsimp only
      exact ⟨by omega, by omega⟩
    · refine ih1 ⟨d.sid, d.startTime, d.duration - (d.endTime - pE),
        d.endTime - (d.endTime - pE), d.opName, d.pid⟩ rfl ?_ pc hpc
      dsimp only
      omega
    · exact ih2 pd hS hE pc hpc
  | case5 pS pE d kids rest hc1 hc2 hc3 ih =>
    intro pd hS hE pc hpc
    simp only [sanitizeChildrenOf, if_neg hc1, if_neg hc2, if_neg hc3] at hpc
    exact ih pd hS hE pc hpc

/-- Claim C1: for every rooted trace tree with non-negative durations, after
`sanitizeOverflowingChildren` is run on the root, every span still reachable
from the root other than the root itself satisfies
`parent.startTime ≤ startTime` and `endTime ≤ parent.endTime`. -/
theorem claim_C1_sanitize_containment (t : GTree) (hdur : nonNegDur t = true) :
    ∀ pc ∈ edges (sanitizeOverflowingChildren t),
      pc.1.startTime ≤ pc.2.startTime ∧ pc.2.endTime ≤ pc.1.endTime := by
  cases t with
  | node d kids =>
    intro pc hpc
    simp only [sanitizeOverflowingChildren, edges] at hpc
    exact edgesForest_sanitize_sound d.startTime d.endTime kids d rfl rfl pc hpc

/-- Concrete instantiation of claim C1 at a three-span tree whose child
overflows its parent trailing edge. -/
theorem claim_C1_sanitize_containment_witness :
    nonNegDur (GTree.node ⟨"A", 0, 100, 100, "O1", "S1"⟩
      (.cons (.node ⟨"B", 90, 50, 140, "O2", "S1"⟩
        (.cons (.node ⟨"C", 95, 20, 115, "O3", "S1"⟩ .nil) .nil)) .nil)) = true ∧
    ∀ pc ∈ edges (sanitizeOverflowingChildren (GTree.node ⟨"A", 0, 100, 100, "O1", "S1"⟩
      (.cons (.node ⟨"B", 90, 50, 140, "O2", "S1"⟩
        (.cons (.node ⟨"C", 95, 20, 115, "O3", "S1"⟩ .nil) .nil)) .nil))),
      pc.1.startTime ≤ pc.2.startTime ∧ pc.2.endTime ≤ pc.1.endTime :=
  ⟨by decide, claim_C1_sanitize_containment _ (by decide)⟩

/-! ### Happens-before (`Graph.happensBefore`, `Graph.numSyncEventsInWindowInclusive`)

`happensBefore` decides whether the candidate child ends before the
successor child starts, with a clock-skew tolerance: an overlap smaller
than `_OVERLAP_ALLOWANCE_FRACTION = 0.01` of the parent duration is
accepted when exactly two sibling endpoints fall in the overlap window.
The Python true division of microsecond integers is modelled with exact
rational arithmetic. -/

def OVERLAP_ALLOWANCE_FRACTION : ℚ := 1 / 100

/-- Number of child start/end events inside the closed window `[lo, hi]`,
as the accumulating loop of `numSyncEventsInWindowInclusive`. -/
def numSyncEventsInWindowInclusive (children : List SpanData) (lo hi : Int) : Nat :=
  children.foldl (fun numEvents c =>
    let n1 := if c.startTime ≥ lo ∧ c.startTime ≤ hi then numEvents + 1 else numEvents
    if c.endTime ≥ lo ∧ c.endTime ≤ hi then n1 + 1 else n1) 0

/-- Number of child start endpoints plus number of child end endpoints lying
in the closed window `[lo, hi]`, phrased with `List.countP` as in the
specification text. -/
def endpointCount (children : List SpanData) (lo hi : Int) : Nat :=
  children.countP (fun c => decide (c.startTime ≥ lo ∧ c.startTime ≤ hi)) +
  children.countP (fun c => decide (c.endTime ≥ lo ∧ c.endTime ≤ hi))

theorem numSyncEventsInWindowInclusive_foldl (lo hi : Int) (children : List SpanData) :
    ∀ a : Nat,
      children.foldl (fun numEvents c =>
        let n1 := if c.startTime ≥ lo ∧ c.startTime ≤ hi then numEvents + 1 else numEvents
        if c.endTime ≥ lo ∧ c.endTime ≤ hi then n1 + 1 else n1) a
      = a + endpointCount children lo hi := by
  induction children with
  | nil => intro a; simp [endpointCount]
  | cons c rest ih =>
    intro a
    simp only [List.foldl_cons]
    rw [ih]
    simp only [endpointCount, List.countP_cons]
    by_cases hs : c.startTime ≥ lo ∧ c.startTime ≤ hi <;>
      by_cases he : c.endTime ≥ lo ∧ c.endTime ≤ hi <;>
        simp [hs, he] <;> omega

theorem numSyncEventsInWindowInclusive_eq (children : List SpanData) (lo hi : Int) :
    numSyncEventsInWindowInclusive children lo hi = endpointCount children lo hi := by
  unfold numSyncEventsInWindowInclusive
  rw [numSyncEventsInWindowInclusive_foldl]
  simp

/-- Happens-before relation on two children of `parent`; `reverseSortedChildren`
is the full sibling list the caller passes (children of `parent` in
reverse-sorted order). -/
def happensBefore (parent : SpanData) (reverseSortedChildren : List SpanData)
    (childBefore childLater : SpanData) : Bool :=
  if childBefore.endTime < childLater.startTime then
    true
  else if childBefore.endTime < childLater.endTime ∧
      childBefore.startTime < childLater.startTime ∧
      ((childBefore.endTime - childLater.startTime : Int) : ℚ) / ((parent.duration : Int) : ℚ)
        < OVERLAP_ALLOWANCE_FRACTION then
    if numSyncEventsInWindowInclusive reverseSortedChildren
        childLater.startTime childBefore.endTime = 2 then
      true
    else
      false
  else
    false

theorem happensBefore_iff (parent : SpanData) (children : List SpanData)
    (c l : SpanData) :
    happensBefore parent children c l = true ↔
      c.endTime < l.startTime ∨
      (c.endTime < l.endTime ∧ c.startTime < l.startTime ∧
        ((c.endTime - l.startTime : Int) : ℚ) / ((parent.duration : Int) : ℚ) < 1 / 100 ∧
        endpointCount children l.startTime c.endTime = 2) := by
  unfold happensBefore OVERLAP_ALLOWANCE_FRACTION
  rw [numSyncEventsInWindowInclusive_eq]
  split_ifs with h1 h2 h3
  · simp [h1]
  · simp only [true_iff]
    exact Or.inr ⟨h2.1, h2.2.1, h2.2.2, h3⟩
  · simp only [false_iff]
    rintro (h | ⟨_, _, _, hcount⟩)
    · exact h1 h
    · exact h3 hcount
  · simp only [false_iff]
    rintro (h | ⟨ha, hb, hr, _⟩)
    · exact h1 h
    · exact h2 ⟨ha, hb, hr⟩

/-- Claim C2: `happensBefore(P, children, C, L)` returns true if and only if
either `C.endTime < L.startTime`, or all of `C.endTime < L.endTime`,
`C.startTime < L.startTime`, `(C.endTime - L.startTime) / P.duration < 0.01`,
and the number of child start/end endpoints lying in the closed interval
`[L.startTime, C.endTime]`, counted over all children, is exactly two. -/
theorem claim_C2_happensBefore_characterization (parent : SpanData)
    (children : List SpanData) (c l : SpanData) :
    happensBefore parent children c l = true ↔
      c.endTime < l.startTime ∨
      (c.endTime < l.endTime ∧ c.startTime < l.startTime ∧
        ((c.endTime - l.startTime : Int) : ℚ) / ((parent.duration : Int) : ℚ) < 1 / 100 ∧
        endpointCount children l.startTime c.endTime = 2) :=
  happensBefore_iff parent children c l

/-- Claim C8: for a parent whose children all have non-negative durations
(and the `endTime = startTime + duration` construction invariant), the
happens-before relation is antisymmetric. -/
theorem claim_C8_antisymmetry (parent : SpanData) (children : List SpanData)
    (a b : SpanData) (ha : a ∈ children) (hb : b ∈ children)
    (hdur : ∀ c ∈ children, 0 ≤ c.duration ∧ c.endTime = c.startTime + c.duration)
    (hab : happensBefore parent children a b = true) :
    happensBefore parent children b a = false := by
  have hA := hdur a ha
  have hB := hdur b hb
  rw [happensBefore_iff] at hab
  unfold happensBefore
  split_ifs with h1 h2 h3
  · exfalso
    rcases hab with h | ⟨h, _, _, _⟩ <;> omega
  · exfalso
    obtain ⟨h2a, h2b, _⟩ := h2
    rcases hab with h | ⟨h, _, _, _⟩ <;> omega
  · rfl
  · rfl

/-- Concrete instantiation of claim C8: two disjoint children of a parent. -/
theorem claim_C8_antisymmetry_witness :
    (⟨"a", 0, 100, 100, "Oa", "S"⟩ : SpanData) ∈
        [(⟨"b", 200, 100, 300, "Ob", "S"⟩ : SpanData), ⟨"a", 0, 100, 100, "Oa", "S"⟩] ∧
    (⟨"b", 200, 100, 300, "Ob", "S"⟩ : SpanData) ∈
        [(⟨"b", 200, 100, 300, "Ob", "S"⟩ : SpanData), ⟨"a", 0, 100, 100, "Oa", "S"⟩] ∧
    (∀ c ∈ [(⟨"b", 200, 100, 300, "Ob", "S"⟩ : SpanData), ⟨"a", 0, 100, 100, "Oa", "S"⟩],
      0 ≤ c.duration ∧ c.endTime = c.startTime + c.duration) ∧
    happensBefore ⟨"p", 0, 1000, 1000, "Op", "S"⟩
      [⟨"b", 200, 100, 300, "Ob", "S"⟩, ⟨"a", 0, 100, 100, "Oa", "S"⟩]
      ⟨"a", 0, 100, 100, "Oa", "S"⟩ ⟨"b", 200, 100, 300, "Ob", "S"⟩ = true ∧
    happensBefore ⟨"p", 0, 1000, 1000, "Op", "S"⟩
      [⟨"b", 200, 100, 300, "Ob", "S"⟩, ⟨"a", 0, 100, 100, "Oa", "S"⟩]
      ⟨"b", 200, 100, 300, "Ob", "S"⟩ ⟨"a", 0, 100, 100, "Oa", "S"⟩ = false :=
  ⟨by decide, by decide, by decide, by decide,
    claim_C8_antisymmetry _ _ _ _ (by decide) (by decide) (by decide) (by decide)⟩

/-! ### Critical path (`Graph.computeCriticalPath`)

The children of the current node are sorted by end time (a stable sort, as
Python's `sorted`) and reversed; the latest-ending child starts the path
and each further child is added exactly when it happens-before the current
last-added child.  The recursion is bounded by an explicit fuel argument
(any fuel larger than the tree depth is enough); every entry carries the
list of its ancestors (root first) so that the parent pointer chain used
by `getCallPath` and `getMetrics` is available. -/

def insertByEndTime (x : GTree) : List GTree → List GTree
  | [] => [x]
  | y :: ys =>
    if x.dataOf.endTime ≤ y.dataOf.endTime then x :: y :: ys else y :: insertByEndTime x ys

/-- Stable ascending sort by span end time, as `sorted(children, key endTime)`. -/
def sortedByEndTime (l : List GTree) : List GTree := l.foldr insertByEndTime []

/-- Children sorted by end time then reversed, as `sorted(...)[::-1]`. -/
def reverseSortedKids (kids : GForest) : List GTree :=
  (sortedByEndTime kids.toList).reverse

/-- Entry of a computed critical path: the span together with its ancestor
chain (root first), standing for the `parent` pointers of `GraphNode`. -/
structure CPEntry where
  data : SpanData
  anc : List SpanData
deriving Repr, DecidableEq

def computeCriticalPath : Nat → List SpanData → GTree → List CPEntry
  | 0, _, _ => []
  | fuel + 1, anc, GTree.node d kids =>
    match reverseSortedKids kids with
    | [] => [⟨d, anc⟩]
    | lrc :: rest =>
      let sortedData := (reverseSortedKids kids).map GTree.dataOf
      let start : GTree × List CPEntry :=
        (lrc, ⟨d, anc⟩ :: computeCriticalPath fuel (anc ++ [d]) lrc)
      (rest.foldl (fun st cn =>
        if happensBefore d sortedData cn.dataOf st.1.dataOf then
          (cn, st.2 ++ computeCriticalPath fuel (anc ++ [d]) cn)
        else
          st) start).2

/-! ### Metrics (`Graph.getMetrics`, `accumulateInDict`, `Graph.getCallPath`)

Python dictionaries are insertion-ordered association lists here:
`accumulateInDict` updates the value in place when the key exists and
appends a fresh pair otherwise.  The canonical name of a span is
`"[" + serviceName + "] " + opName` (a missing process id, which would
raise in Python, is rendered as the empty service name).  The call path
joins the canonical names from the root with `"->"`. -/

def canonicalOpName (processName : List (String × String)) (d : SpanData) : String :=
  "[" ++ ((processName.lookup d.pid).getD "") ++ "] " ++ d.opName

def getCallPathOf (processName : List (String × String)) (spans : List SpanData) : String :=
  String.intercalate "->" (spans.map (canonicalOpName processName))

def getCallPath (processName : List (String × String)) (e : CPEntry) : String :=
  getCallPathOf processName (e.anc ++ [e.data])

def accumulateInDict (dict : List (String × Int)) (key : String) (value : Int) :
    List (String × Int) :=
  if (dict.lookup key).isSome then
    dict.map (fun kv => if kv.1 = key then (kv.1, kv.2 + value) else kv)
  else
    dict ++ [(key, value)]

/-- Flat exclusive profile: every span adds its duration to its own
canonical name and, when it is not the root (empty ancestor chain only for
the root), subtracts it from its parent's canonical name. -/
def opTimeExclusiveOf (pn : List (String × String)) (criticalPath : List CPEntry) :
    List (String × Int) :=
  criticalPath.reverse.foldl (fun acc e =>
    let acc1 := accumulateInDict acc (canonicalOpName pn e.data) e.data.duration
    match e.anc.getLast? with
    | none => acc1
    | some pd => accumulateInDict acc1 (canonicalOpName pn pd) (-e.data.duration)) []

/-- Flat inclusive profile: every span adds its duration to its own
canonical name. -/
def opTimeInclusiveOf (pn : List (String × String)) (criticalPath : List CPEntry) :
    List (String × Int) :=
  criticalPath.reverse.foldl (fun acc e =>
    accumulateInDict acc (canonicalOpName pn e.data) e.data.duration) []

/-- Call-path exclusive profile (field name keeps the source spelling). -/
def callpathTimeExlusiveOf (pn : List (String × String)) (criticalPath : List CPEntry) :
    List (String × Int) :=
  criticalPath.reverse.foldl (fun acc e =>
    let acc1 := accumulateInDict acc (getCallPath pn e) e.data.duration
    match e.anc.getLast? with
    | none => acc1
    | some _ => accumulateInDict acc1 (getCallPathOf pn e.anc) (-e.data.duration)) []

/-- Call-path inclusive profile. -/
def callpathTimeInclusiveOf (pn : List (String × String)) (criticalPath : List CPEntry) :
    List (String × Int) :=
  criticalPath.reverse.foldl (fun acc e =>
    accumulateInDict acc (getCallPath pn e) e.data.duration) []

/-- The `Graph.__init__` value of the `callChain` attribute: the empty
dictionary, never reassigned anywhere in `graph.py`. -/
def graphSelfCallChain : List (String × List String) := []

def dictSetList (d : List (String × List String)) (key : String) (v : List String) :
    List (String × List String) :=
  if (d.lookup key).isSome then
    d.map (fun kv => if kv.1 = key then (kv.1, v) else kv)
  else
    d ++ [(key, v)]

def dictAppendList (d : List (String × List String)) (key : String) (s : String) :
    List (String × List String) :=
  d.map (fun kv => if kv.1 = key then (kv.1, kv.2 ++ [s]) else kv)

/-- Call-chain map built by `getMetrics`: per span the source tests
`if op not in self.callChain` (the attribute above, which is always empty,
so the test always succeeds), resets `callChain[op]` to the empty list,
and then appends the span's call path. -/
def callChainOf (pn : List (String × String)) (criticalPath : List CPEntry) :
    List (String × List String) :=
  criticalPath.reverse.foldl (fun acc e =>
    let op := canonicalOpName pn e.data
    let acc1 := if (graphSelfCallChain.lookup op).isSome then acc else dictSetList acc op []
    dictAppendList acc1 op (getCallPath pn e)) []

structure Metrics where
  opTimeExclusive : List (String × Int)
  callpathTimeExlusive : List (String × Int)
  opTimeInclusive : List (String × Int)
  callpathTimeInclusive : List (String × Int)
  callChain : List (String × List String)
deriving Repr, DecidableEq

def getMetrics (pn : List (String × String)) (criticalPath : List CPEntry) : Metrics :=
  { opTimeExclusive := opTimeExclusiveOf pn criticalPath
    callpathTimeExlusive := callpathTimeExlusiveOf pn criticalPath
    opTimeInclusive := opTimeInclusiveOf pn criticalPath
    callpathTimeInclusive := callpathTimeInclusiveOf pn criticalPath
    callChain := callChainOf pn criticalPath }

/-! ### Scenario of claim C3: root `A` `[0,100]`, child `B` start 90, duration 50. -/

def spanA3 : SpanData := ⟨"A", 0, 100, 100, "A", "S1"⟩

def spanB3 : SpanData := ⟨"B", 90, 50, 140, "B", "S1"⟩

def trace3 : GTree := .node spanA3 (.cons (.node spanB3 .nil) .nil)

/-- Claim C3 counterexample: sanitizing `B` (start 90, duration 50) under
`A` `[0, 100]` truncates its trailing overflow of 40, giving duration 10
(not 60), and the exclusive time of `[S1] A` is 90 (not 10). -/
theorem claim_C3_counterexample :
    sanitizeOverflowingChildren trace3
      = GTree.node spanA3 (.cons (.node ⟨"B", 90, 10, 100, "B", "S1"⟩ .nil) .nil) ∧
    (10 : Int) ≠ 60 ∧
    ((getMetrics [("S1", "S1")]
        (computeCriticalPath 2 [] (sanitizeOverflowingChildren trace3))).opTimeExclusive.lookup
          "[S1] A") = some 90 ∧
    some (90 : Int) ≠ some 10 := by
  decide

/-- Claim C3 amended: sanitization produces `B.duration = 10` and
`B.end = 100`, the critical path is `[A, B]`, and the exclusive times are
`[S1] A = 90` and `[S1] B = 10`. -/
theorem claim_C3_amended_scenario :
    sanitizeOverflowingChildren trace3
      = GTree.node spanA3 (.cons (.node ⟨"B", 90, 10, 100, "B", "S1"⟩ .nil) .nil) ∧
    computeCriticalPath 2 [] (sanitizeOverflowingChildren trace3)
      = [⟨spanA3, []⟩, ⟨⟨"B", 90, 10, 100, "B", "S1"⟩, [spanA3]⟩] ∧
    ((getMetrics [("S1", "S1")]
        (computeCriticalPath 2 [] (sanitizeOverflowingChildren trace3))).opTimeExclusive.lookup
          "[S1] A") = some 90 ∧
    ((getMetrics [("S1", "S1")]
        (computeCriticalPath 2 [] (sanitizeOverflowingChildren trace3))).opTimeExclusive.lookup
          "[S1] B") = some 10 := by
  decide

/-! ### Scenario of claim C6: operation `X` on the critical path under two
distinct call paths (`R -> X` and `R -> X -> X`). -/

def spanR6 : SpanData := ⟨"A", 0, 100, 100, "R", "S"⟩

def spanX6a : SpanData := ⟨"B", 0, 100, 100, "X", "S"⟩

def spanX6b : SpanData := ⟨"D", 0, 100, 100, "X", "S"⟩

def trace6 : GTree :=
  .node spanR6 (.cons (.node spanX6a (.cons (.node spanX6b .nil) .nil)) .nil)

/-- Claim C6 divergence: on a critical path where operation `[S] X` occurs
under the two distinct call paths `[S] R->[S] X` and `[S] R->[S] X->[S] X`,
the `call_chain` map returned by `getMetrics` retains only the call path of
the span processed last — the membership test against the always-empty
`self.callChain` attribute resets the accumulated list on every step — so
the second call path is missing, contradicting the claim. -/
theorem claim_C6_code_divergence :
    computeCriticalPath 3 [] (sanitizeOverflowingChildren trace6)
      = [⟨spanR6, []⟩, ⟨spanX6a, [spanR6]⟩, ⟨spanX6b, [spanR6, spanX6a]⟩] ∧
    getCallPath [("S", "S")] ⟨spanX6a, [spanR6]⟩ = "[S] R->[S] X" ∧
    getCallPath [("S", "S")] ⟨spanX6b, [spanR6, spanX6a]⟩ = "[S] R->[S] X->[S] X" ∧
    ((getMetrics [("S", "S")]
        (computeCriticalPath 3 [] (sanitizeOverflowingChildren trace6))).callChain.lookup
          "[S] X") = some ["[S] R->[S] X"] ∧
    "[S] R->[S] X->[S] X" ∉ ["[S] R->[S] X"] := by
  decide

/-! ### Scenario of claim C5: two children overlapping within the tolerance,
both on the critical path, with combined durations exceeding the parent's. -/

def spanA5 : SpanData := ⟨"A", 0, 1000, 1000, "OA", "S"⟩

def spanB5 : SpanData := ⟨"B", 0, 501, 501, "OB", "S"⟩

def spanC5 : SpanData := ⟨"C", 500, 500, 1000, "OC", "S"⟩

def trace5 : GTree :=
  .node spanA5 (.cons (.node spanB5 .nil) (.cons (.node spanC5 .nil) .nil))

theorem happensBefore_trace5 :
    happensBefore spanA5 [spanC5, spanB5] spanB5 spanC5 = true := by
  unfold happensBefore
  rw [if_neg (by decide : ¬ (spanB5.endTime < spanC5.startTime))]
  rw [if_pos ?hcond]
  case hcond =>
    refine ⟨by decide, by decide, ?_⟩
    show (((501 : Int) - 500 : Int) : ℚ) / ((1000 : Int) : ℚ) < OVERLAP_ALLOWANCE_FRACTION
    rw [OVERLAP_ALLOWANCE_FRACTION]
    norm_num
  rw [if_pos (by decide :
    numSyncEventsInWindowInclusive [spanC5, spanB5] spanC5.startTime spanB5.endTime = 2)]

theorem computeCriticalPath_trace5 :
    computeCriticalPath 2 [] (sanitizeOverflowingChildren trace5)
      = [⟨spanA5, []⟩, ⟨spanC5, [spanA5]⟩, ⟨spanB5, [spanA5]⟩] := by
  have hsan : sanitizeOverflowingChildren trace5 = trace5 := by decide
  have hsort : reverseSortedKids
      (.cons (.node spanB5 .nil) (.cons (.node spanC5 .nil) .nil))
      = [.node spanC5 .nil, .node spanB5 .nil] := by decide
  rw [hsan]
  show computeCriticalPath 2 [] (.node spanA5
    (.cons (.node spanB5 .nil) (.cons (.node spanC5 .nil) .nil))) = _
  rw [computeCriticalPath, hsort]
  simp only [List.foldl_cons, List.foldl_nil, GTree.dataOf, List.map_cons, List.map_nil]
  rw [if_pos happensBefore_trace5]
  decide

/-- Claim C5 counterexample: the `MetricSet` returned by `getMetrics` for
the sanitized trace `A [0,1000]` with tolerantly overlapping children
`B [0,501]` and `C [500,1000]` (critical path `[A, C, B]`) contains the
negative exclusive value `-1` for `[S] OA`, in both the flat and the
call-path exclusive maps: no clamping to 0 happened before the return. -/
theorem claim_C5_counterexample :
    ((getMetrics [("S", "S")]
        (computeCriticalPath 2 [] (sanitizeOverflowingChildren trace5))).opTimeExclusive.lookup
          "[S] OA") = some (-1) ∧
    ((getMetrics [("S", "S")]
        (computeCriticalPath 2 []
          (sanitizeOverflowingChildren trace5))).callpathTimeExlusive.lookup
          "[S] OA") = some (-1) ∧
    ¬ (∀ x ∈ (getMetrics [("S", "S")]
        (computeCriticalPath 2 [] (sanitizeOverflowingChildren trace5))).opTimeExclusive,
          0 ≤ x.2) := by
  rw [computeCriticalPath_trace5]
  refine ⟨by decide, by decide, by decide⟩

theorem accumulateInDict_nonneg (dict : List (String × Int)) (key : String) (value : Int)
    (hd : ∀ x ∈ dict, 0 ≤ x.2) (hv : 0 ≤ value) :
    ∀ x ∈ accumulateInDict dict key value, 0 ≤ x.2 := by
  intro x hx
  unfold accumulateInDict at hx
  split_ifs at hx
  · obtain ⟨y, hy, rfl⟩ := List.mem_map.mp hx
    have := hd y hy
    split_ifs <;> simp <;> omega
  · rcases List.mem_append.mp hx with h | h
    · exact hd x h
    · simp at h
      simp [h, hv]

theorem inclusive_foldl_nonneg (key : CPEntry → String) (l : List CPEntry) :
    ∀ acc : List (String × Int), (∀ x ∈ acc, 0 ≤ x.2) →
      (∀ e ∈ l, 0 ≤ e.data.duration) →
      ∀ x ∈ l.foldl (fun acc e => accumulateInDict acc (key e) e.data.duration) acc, 0 ≤ x.2 := by
  induction l with
  | nil => intro acc hacc _ x hx; exact hacc x hx
  | cons e rest ih =>
    intro acc hacc hdur x hx
    simp only [List.foldl_cons] at hx
    refine ih _ ?_ (fun e2 he2 => hdur e2 (List.mem_cons_of_mem e he2)) x hx
    exact accumulateInDict_nonneg acc (key e) e.data.duration hacc
      (hdur e (List.mem_cons_self e rest))

/-- Claim C5 amended: `getMetrics` applies no clamping — an exclusive
counter that ends negative is returned negative (witnessed by the
scenario of `trace5`, where `[S] OA` is returned as `-1`) — while the
inclusive counters, being plain per-key sums of span durations, are
non-negative whenever all durations on the critical path are. -/
theorem claim_C5_amended_no_clamp :
    (((getMetrics [("S", "S")]
        (computeCriticalPath 2 [] (sanitizeOverflowingChildren trace5))).opTimeExclusive.lookup
          "[S] OA") = some (-1)) ∧
    ∀ (pn : List (String × String)) (cp : List CPEntry),
      (∀ e ∈ cp, 0 ≤ e.data.duration) →
      (∀ x ∈ (getMetrics pn cp).opTimeInclusive, 0 ≤ x.2) ∧
      (∀ x ∈ (getMetrics pn cp).callpathTimeInclusive, 0 ≤ x.2) := by
  constructor
  · rw [computeCriticalPath_trace5]
    decide
  · intro pn cp hdur
    have hdur2 : ∀ e ∈ cp.reverse, 0 ≤ e.data.duration := by
      intro e he
      exact hdur e (List.mem_reverse.mp he)
    constructor
    · exact inclusive_foldl_nonneg (fun e => canonicalOpName pn e.data) cp.reverse []
        (by simp) hdur2
    · exact inclusive_foldl_nonneg (fun e => getCallPath pn e) cp.reverse []
        (by simp) hdur2

/-- Concrete instantiation of the general part of the amended claim C5. -/
theorem claim_C5_amended_no_clamp_witness :
    (∀ e ∈ [(⟨spanA5, []⟩ : CPEntry)], 0 ≤ e.data.duration) ∧
    (∀ x ∈ (getMetrics [("S", "S")] [(⟨spanA5, []⟩ : CPEntry)]).opTimeInclusive, 0 ≤ x.2) :=
  ⟨by decide, (claim_C5_amended_no_clamp.2 [("S", "S")] [⟨spanA5, []⟩] (by decide)).1⟩

/-! ### Folded-stack emission (`process.flameGraph`, `flamegraph.aggregateCCTs`)

`process.py` collects per-trace samples `(totalTime, callpathTimeExlusive)`
sorted ascending by total time.  For a percentile with `limit > 0` its
`flameGraph` runs `for time, ccts in cctsAndtime[:limit]`, rebinding the
aggregation dictionary `ccts` to each sample's own dictionary, and inside
it runs `for k, v in ccts.items(): if not k in ccts: ccts[k] = v else:
ccts[k] += v`; the test is always false, so every value of the sample's
dictionary is added to itself in place.  After the loop `ccts` is the
(doubled) dictionary of the last processed sample, and the folded-stack
text is rendered from it.  `flamegraph.py` instead aggregates into a fresh
`aggregateCcts` dictionary. -/

def replaceArrows : List Char → List Char
  | '-' :: '>' :: rest => ';' :: replaceArrows rest
  | c :: rest => c :: replaceArrows rest
  | [] => []

/-- The call-path key with every `"->"` replaced by `";"`, as
`k.replace(minus-greater, semicolon)`. -/
def replaceArrowSemi (s : String) : String := ⟨replaceArrows s.data⟩

/-- Folded-stack text: one line per dictionary entry, the rewritten key,
one space, the value, a newline. -/
def foldedStackText (d : List (String × Int)) : String :=
  d.foldl (fun acc kv => acc ++ replaceArrowSemi kv.1 ++ " " ++ toString kv.2 ++ "\n") ""

/-- Effect of the inner loop of `process.flameGraph` on one sample
dictionary: every value is added to itself (the `else` branch always
runs because each key is a key of the dictionary being iterated). -/
def mutateSampleDict (d : List (String × Int)) : List (String × Int) :=
  d.map (fun kv => (kv.1, kv.2 + kv.2))

/-- One percentile iteration of `process.flameGraph` (for `limit ≥ 1`):
returns the emitted folded-stack text and the sample list as left behind
by the in-place mutation. -/
def processFlameGraphStep (cctsAndtime : List (Int × List (String × Int))) (limit : Nat) :
    String × List (Int × List (String × Int)) :=
  let processed := (cctsAndtime.take limit).map (fun tv => (tv.1, mutateSampleDict tv.2))
  let cctsAfterLoop := ((processed.getLast?).map Prod.snd).getD []
  (foldedStackText cctsAfterLoop, processed ++ cctsAndtime.drop limit)

/-- Aggregation of `flamegraph.aggregateCCTs`: sum the values per call-path
key over all given samples into a fresh dictionary, then render. -/
def aggregateCCTs (cctsAndtime : List (Int × List (String × Int))) : String :=
  foldedStackText (cctsAndtime.foldl
    (fun agg tv => tv.2.foldl (fun a kv => accumulateInDict a kv.1 kv.2) agg) [])

def samples7 : List (Int × List (String × Int)) := [(1, [("a->b", 10)]), (2, [("a->c", 5)])]

/-- Claim C7 divergence: on two samples sorted by total time with `k = 1`
(percentile 50 of two samples), the folded-stack text emitted by
`process.flameGraph` is `"a;b 20\n"` — the first sample's dictionary
doubled in place — although the sum over the first `k` samples is 10
(the text `flamegraph.aggregateCCTs` produces), and the input samples are
modified. -/
theorem claim_C7_code_divergence :
    processFlameGraphStep samples7 1
      = ("a;b 20\n", [(1, [("a->b", 20)]), (2, [("a->c", 5)])]) ∧
    aggregateCCTs (samples7.take 1) = "a;b 10\n" ∧
    ("a;b 20\n" : String) ≠ "a;b 10\n" ∧
    (processFlameGraphStep samples7 1).2 ≠ samples7 := by
  decide

/-! ### Lenient root selection (`Graph.__init__`, non-strict branch)

When `rootTrace` is false the constructor walks the potential roots, uses
`findARoot` (a depth-first search for the first span whose service and
operation names match), re-checks it with `checkRootAndWarn`, and then
detaches it with the two assignments `someRoot.parent = None` and
`someRoot.parentId = None`.  `GraphNode.__init__` defines a field
`parentSpanId` but no field `parentId`, so the second assignment creates a
fresh attribute (modelled by the `parentId` option-of-option field, `none`
while the attribute is absent) and leaves `parentSpanId` untouched. -/

structure LNode where
  sid : String
  parentSpanId : Option String
  parent : Option String
  opName : String
  pid : String
  parentId : Option (Option String)
deriving Repr, DecidableEq

mutual
inductive LTree where
  | node (data : LNode) (children : LForest)
deriving Repr, DecidableEq

inductive LForest where
  | nil
  | cons (t : LTree) (rest : LForest)
deriving Repr, DecidableEq
end

def LTree.dataOf : LTree → LNode
  | .node d _ => d

mutual
def findARoot (pn : List (String × String)) (svc op : String) : LTree → Option LTree
  | .node d kids =>
    if (pn.lookup d.pid).getD "" = svc ∧ d.opName = op then some (.node d kids)
    else findARootForest pn svc op kids

def findARootForest (pn : List (String × String)) (svc op : String) : LForest → Option LTree
  | .nil => none
  | .cons c rest =>
    match findARoot pn svc op c with
    | some found => some found
    | none => findARootForest pn svc op rest
end

def checkRootAndWarn (pn : List (String × String)) (svc op : String) (d : LNode) : Bool :=
  if (pn.lookup d.pid).getD "" ≠ svc ∨ d.opName ≠ op then false else true

/-- The two detaching assignments of the lenient branch:
`someRoot.parent = None` and `someRoot.parentId = None` (the latter creates
a new attribute; the `parentSpanId` field is not mentioned). -/
def lenientDetachRoot (n : LNode) : LNode :=
  { n with parent := none, parentId := some none }

def lenientRootSelect (pn : List (String × String)) (svc op : String) :
    List LTree → Option LNode
  | [] => none
  | c :: rest =>
    match findARoot pn svc op c with
    | none => lenientRootSelect pn svc op rest
    | some someRoot =>
      if checkRootAndWarn pn svc op someRoot.dataOf then
        some (lenientDetachRoot someRoot.dataOf)
      else
        lenientRootSelect pn svc op rest

def nodeR9 : LNode := ⟨"R", none, none, "other", "S", none⟩

def nodeM9 : LNode := ⟨"M", some "R", some "R", "O", "S", none⟩

def tree9 : LTree := .node nodeR9 (.cons (.node nodeM9 .nil) .nil)

/-- Claim C9 divergence: the matching span `M` found by the lenient
depth-first search under the non-matching potential root `R` is selected
with its `parent` field cleared but its `parentSpanId` field still `"R"`;
only the freshly created `parentId` attribute is set to `None`. -/
theorem claim_C9_code_divergence :
    lenientRootSelect [("S", "S")] "S" "O" [tree9]
      = some ⟨"M", some "R", none, "O", "S", some none⟩ ∧
    (lenientDetachRoot nodeM9).parentSpanId = some "R" ∧
    (some "R" : Option String) ≠ none ∧
    (lenientDetachRoot nodeM9).parent = none ∧
    (lenientDetachRoot nodeM9).parentId = some none := by
  decide

/-! ### `GraphNode.setParent` and `GraphNode.addChild`

`addChild` performs the single statement `self.children[child] = True`; the
children dictionary is modelled by its ordered key list (span ids are
unique within a trace), so an existing key keeps its position and a new key
is appended.  The child's `parent` field is written only by the separate
`setParent` method. -/

structure CNode where
  sid : String
  parent : Option String
  children : List String
deriving Repr, DecidableEq

def setParent (self parent : CNode) : CNode := { self with parent := some parent.sid }

def addChild (self child : CNode) : CNode × CNode :=
  ({ self with children :=
      if self.children.contains child.sid then self.children
      else self.children ++ [child.sid] },
   child)

/-- Claim C10 counterexample: `addChild` does not set the child's `parent`
field — after `p.addChild(c)` on fresh nodes the child's parent is still
`None`, not `p`. -/
theorem claim_C10_counterexample :
    ((addChild ⟨"p", none, []⟩ ⟨"c", none, []⟩).2).parent = none ∧
    (none : Option String) ≠ some "p" := by
  decide

/-- Claim C10 amended: `p.addChild(c)` inserts `c` into `p.children` and
leaves `c` itself (in particular `c.parent`) unchanged — the parent pointer
is written by the separate `setParent` method — and a second `addChild`
call leaves everything unchanged (idempotent on repeat insertion). -/
theorem claim_C10_amended_addChild (p c : CNode) :
    c.sid ∈ (addChild p c).1.children ∧
    (addChild p c).2 = c ∧
    addChild (addChild p c).1 ((addChild p c).2) = addChild p c ∧
    (setParent c p).parent = some p.sid := by
  refine ⟨?_, rfl, ?_, rfl⟩
  · unfold addChild
    dsimp only
    split_ifs with h
    · simpa using h
    · simp
  · unfold addChild
    dsimp only
    split_ifs with h h2 <;> simp_all

end Crisp
